import Mathlib

/-!
Shallow embedding of the direct-send transaction construction engine of the
coinswap wallet (`src/wallet/direct_send.rs`), together with the parts of its
data model that the engine manipulates.  Pure functions of the source are
translated into Lean functions; the mutable wallet handle (`&mut self`) is
passed as explicit state.  Machine integers (`u64`, `usize`) are modelled as
`Nat`; the `f64` fee rate and the whole-coin (`to_btc`) figures are modelled
as exact rationals `ℚ`.  Rust panics (`assert_eq!`, `Amount` subtraction
underflow) are modelled as an explicit `panic` outcome.
-/

namespace Coinswap

/-- Modelled from the spec: the configured chain of the wallet
(mainnet/testnet/signet/regtest); the `bitcoin::Network` type is not part of
the sources. -/
inductive Network
  | mainnet
  | testnet
  | signet
  | regtest
deriving DecidableEq, Repr

/-- Modelled from the spec: a script (`bitcoin::ScriptBuf` is not part of the
sources); only its byte content matters for serialized-size accounting. -/
structure ScriptBuf where
  bytes : List Nat
deriving DecidableEq, Repr

/-- Modelled from the spec: an address (`bitcoin::Address` is not part of the
sources): an output script together with the set of networks the address
encoding is valid for (`is_valid_for_network`). -/
structure Address where
  script_pubkey : ScriptBuf
  networks : List Network
deriving DecidableEq, Repr

/-- Modelled from the spec: `Address::is_valid_for_network`. -/
def Address.isValidForNetwork (a : Address) (n : Network) : Bool :=
  decide (n ∈ a.networks)

/-- Modelled from the spec: the fields of
`bitcoincore_rpc::json::ListUnspentResultEntry` that `spend_coins` reads:
txid, output index and value (in satoshis). -/
structure ListUnspentResultEntry where
  txid : Nat
  vout : Nat
  amount : Nat
deriving DecidableEq, Repr

/-- Modelled from the spec: the coin-kind tag set of `UTXOSpendInfo`
(`src/wallet/api.rs` is not part of the sources; `direct_send.rs` only ever
matches on the variant, never on the payload). -/
inductive UTXOSpendInfo
  | SeedCoin
  | SwapCoin
  | FidelityBondCoin
  | HashlockContract
  | TimelockContract
deriving DecidableEq, Repr

/-- A candidate coin: a UTXO paired with its spend-info tag. -/
abbrev Coin := ListUnspentResultEntry × UTXOSpendInfo

/-- Modelled from the spec: the wallet error type (`src/wallet/error.rs` is
not part of the sources); only the variants that `direct_send.rs` constructs
are distinguished, plus the locktime-conversion failure propagated by `?`.
The `available`/`required` figures are whole-coin (`to_btc`) values. -/
inductive WalletError
  | general (msg : String)
  | insufficientFund (available : ℚ) (required : ℚ)
  | lockTimeError
deriving DecidableEq, Repr

/-- Modelled from the spec: `Amount::to_btc` — satoshis converted to
whole-coin units (1 coin = 100,000,000 satoshis), as an exact rational. -/
def toBtc (sats : Nat) : ℚ :=
  (sats : ℚ) / 100000000

/-- The mutable wallet state `spend_coins` touches: configured network
(`store.network`), chain height (`rpc.get_block_count`), and the internal
address index advanced by `get_next_internal_addresses`. -/
structure Wallet where
  network : Network
  blockCount : Nat
  internalIndex : Nat
deriving DecidableEq, Repr

/-- Constant `const P2PWPKH_WITNESS_SIZE: usize = 107` (direct_send.rs line 19). -/
def P2PWPKH_WITNESS_SIZE : Nat := 107

/-- Constant `const P2WSH_MULTISIG_2OF2_WITNESS_SIZE: usize = 222` (direct_send.rs line 20). -/
def P2WSH_MULTISIG_2OF2_WITNESS_SIZE : Nat := 222

/-- True exactly on the coin kinds `spend_from_wallet` keeps and the
`spend_coins` scan loop accepts: `SeedCoin` and `SwapCoin`. -/
def isEligible : UTXOSpendInfo → Bool
  | .SeedCoin => true
  | .SwapCoin => true
  | .FidelityBondCoin => false
  | .HashlockContract => false
  | .TimelockContract => false

/-- The witness-size table of the estimator: assumed witness byte length per
eligible coin kind (ineligible kinds never reach the estimator; 0 there). -/
def witnessSizeFor : UTXOSpendInfo → Nat
  | .SeedCoin => P2PWPKH_WITNESS_SIZE
  | .SwapCoin => P2WSH_MULTISIG_2OF2_WITNESS_SIZE
  | _ => 0

/-- Accumulator of the scan loop of `spend_coins` (lines 127-150):
running witness-size total, the selected coins, and running input value. -/
structure Accum where
  totalWitness : Nat
  valid : List Coin
  totalValue : Nat
deriving DecidableEq, Repr

/-- One iteration of the scan loop of `spend_coins` (lines 131-150): seed
coins add the P2PWPKH witness size, swap coins the 2-of-2 multisig witness
size; fidelity-bond and contract coins are skipped (`continue`). -/
def scanStep (acc : Accum) (c : Coin) : Accum :=
  match c.2 with
  | .SeedCoin =>
    { totalWitness := acc.totalWitness + P2PWPKH_WITNESS_SIZE
      valid := acc.valid ++ [c]
      totalValue := acc.totalValue + c.1.amount }
  | .SwapCoin =>
    { totalWitness := acc.totalWitness + P2WSH_MULTISIG_2OF2_WITNESS_SIZE
      valid := acc.valid ++ [c]
      totalValue := acc.totalValue + c.1.amount }
  | _ => acc

/-- The scan loop of `spend_coins` (lines 127-150), as a left fold starting
from zero totals and an empty selection. -/
def scanCoins (coins : List Coin) : Accum :=
  coins.foldl scanStep { totalWitness := 0, valid := [], totalValue := 0 }

/-- Type `SendAmount` (direct_send.rs lines 24-31): send the maximum available
amount, or a specific amount in satoshis. -/
inductive SendAmount
  | Max
  | Amount (a : Nat)
deriving DecidableEq, Repr

/-- Type `Destination` (direct_send.rs lines 47-54): an internal wallet address or
a specific address. -/
inductive Destination
  | Wallet
  | Address (a : Coinswap.Address)
deriving DecidableEq, Repr

/-- Modelled from the spec: a transaction outpoint reference
(`bitcoin::OutPoint`): txid plus output index. -/
structure OutPoint where
  txid : Nat
  vout : Nat
deriving DecidableEq, Repr

/-- Modelled from the spec: a transaction input (`bitcoin::TxIn`): a
previous-output reference, a sequence number, a witness (its serialized
bytes) and an unlock script. -/
structure TxIn where
  previous_output : OutPoint
  sequence : Nat
  witness : List Nat
  script_sig : ScriptBuf
deriving DecidableEq, Repr

/-- Modelled from the spec: a transaction output (`bitcoin::TxOut`): a value
in satoshis and an output script. -/
structure TxOut where
  value : Nat
  script_pubkey : ScriptBuf
deriving DecidableEq, Repr

/-- Modelled from the spec: a transaction (`bitcoin::Transaction`): version,
locktime, inputs, outputs. -/
structure Transaction where
  version : Nat
  lock_time : Nat
  input : List TxIn
  output : List TxOut
deriving DecidableEq, Repr

/-- Modelled from the spec: byte length of a Bitcoin compact-size integer,
used when counting serialized sizes. -/
def compactSizeLen (n : Nat) : Nat :=
  if n < 253 then 1 else if n < 65536 then 3 else if n < 4294967296 then 5 else 9

/-- Byte length of a script. -/
def scriptLen (s : ScriptBuf) : Nat :=
  s.bytes.length

/-- Modelled from the spec: serialized size of one input, excluding witness
data: 36-byte outpoint, compact-size script length, the script, 4-byte
sequence. -/
def txInBaseSize (i : TxIn) : Nat :=
  36 + compactSizeLen (scriptLen i.script_sig) + scriptLen i.script_sig + 4

/-- Modelled from the spec: serialized size of one output: 8-byte value,
compact-size script length, the script. -/
def txOutSize (o : TxOut) : Nat :=
  8 + compactSizeLen (scriptLen o.script_pubkey) + scriptLen o.script_pubkey

/-- Modelled from the spec: `Transaction::base_size` — the serialized size of
the transaction excluding witness data: 4-byte version, compact-size input
count, the inputs, compact-size output count, the outputs, 4-byte locktime
(the bitcoin crate is not part of the sources). -/
def baseSize (tx : Transaction) : Nat :=
  4 + compactSizeLen tx.input.length + (tx.input.map txInBaseSize).sum +
    compactSizeLen tx.output.length + (tx.output.map txOutSize).sum + 4

/-- The estimator of `spend_coins` (lines 188 and 221):
`(base_size * 4 + total_witness_size) / 4` with integer (floor) division. -/
def estimateVsize (base_size total_witness_size : Nat) : Nat :=
  (base_size * 4 + total_witness_size) / 4

/-- The fee computation of `spend_coins` (lines 189 and 222):
`(fee_rate * vsize).ceil() as u64` — the ceiling of the exact rational
product `fee_rate * vsize`, written on the numerator and denominator so that
it evaluates by kernel reduction; `feeFromRate_eq_ceil` proves it equal to
`Int.ceil (fee_rate * vsize)`.  A negative ceiling saturates to 0 as the
Rust float-to-u64 cast does. -/
def feeFromRate (fee_rate : ℚ) (vsize : Nat) : Nat :=
  ((fee_rate.num * vsize + fee_rate.den - 1) / (fee_rate.den : ℤ)).toNat

/-- Translation of `LockTime::from_height(current_height as u32)` (line 118): the `u64`
height is truncated to 32 bits, and heights at or above the 500,000,000
locktime threshold are rejected (modelled from the spec for the bitcoin
crate conversion, which is not part of the sources). -/
def lockTimeFromHeight (h : Nat) : Option Nat :=
  let h32 := h % 4294967296
  if h32 ≤ 499999999 then some h32 else none

/-- Destination resolution of `spend_coins` (lines 160-178): `Wallet`
derives one internal address; `Address(a)` is accepted when valid for the
configured network, or when valid for Testnet or Signet while the configured
network is Testnet or Signet, and is otherwise rejected with a general
error. -/
def resolveDest (derive : Nat → ScriptBuf) (destination : Destination) (w : Wallet) :
    Except WalletError (ScriptBuf × Wallet) :=
  match destination with
  | .Wallet =>
    .ok (derive w.internalIndex, { w with internalIndex := w.internalIndex + 1 })
  | .Address a =>
    let testnet_signet_type :=
      (a.isValidForNetwork .testnet || a.isValidForNetwork .signet) &&
        (decide (w.network = .testnet) || decide (w.network = .signet))
    if (!(a.isValidForNetwork w.network) && !testnet_signet_type) = true then
      .error (WalletError.general "Wrong address type in destinations.")
    else
      .ok (a.script_pubkey, w)

/-- One transaction input per selected coin (lines 152-159): previous-output
reference, zero sequence, empty witness, empty unlock script. -/
def mkTxIn (c : Coin) : TxIn :=
  { previous_output := { txid := c.1.txid, vout := c.1.vout }
    sequence := 0
    witness := []
    script_sig := { bytes := [] } }

/-- The transaction assembled by `spend_coins` up to line 185: version 2,
anti-fee-sniping locktime, one input per selected coin, and the single
destination output with placeholder value zero. -/
def destOnlyTx (lock_time : Nat) (coins : List Coin) (spk : ScriptBuf) : Transaction :=
  { version := 2
    lock_time := lock_time
    input := (scanCoins coins).valid.map mkTxIn
    output := [{ value := 0, script_pubkey := spk }] }

/-- Translation of `tx.output[0].value = value` (line 206). -/
def setOutputValue (tx : Transaction) (v : Nat) : Transaction :=
  { tx with output :=
      match tx.output with
      | [] => []
      | o :: rest => { o with value := v } :: rest }

/-- The change-less virtual size computed at line 188. -/
def noChangeVsize (coins : List Coin) (lock_time : Nat) (spk : ScriptBuf) : Nat :=
  estimateVsize (baseSize (destOnlyTx lock_time coins spk)) (scanCoins coins).totalWitness

/-- The change-less fee computed at line 189. -/
def noChangeFee (fee_rate : ℚ) (coins : List Coin) (lock_time : Nat) (spk : ScriptBuf) : Nat :=
  feeFromRate fee_rate (noChangeVsize coins lock_time spk)

/-- The trial transaction of the change policy (lines 214-218): the
destination-only transaction with its value set, plus a candidate change
output with placeholder value zero. -/
def withChangeTx (lock_time : Nat) (coins : List Coin) (spk : ScriptBuf) (amount : Nat)
    (change_spk : ScriptBuf) : Transaction :=
  let tx2 := setOutputValue (destOnlyTx lock_time coins spk) amount
  { tx2 with output := tx2.output ++ [{ value := 0, script_pubkey := change_spk }] }

/-- The with-change virtual size computed at line 221, from the own base size of the trial
transaction. -/
def withChangeVsize (coins : List Coin) (lock_time : Nat) (spk : ScriptBuf)
    (amount : Nat) (change_spk : ScriptBuf) : Nat :=
  estimateVsize (baseSize (withChangeTx lock_time coins spk amount change_spk))
    (scanCoins coins).totalWitness

/-- The with-change fee computed at line 222. -/
def withChangeFee (fee_rate : ℚ) (coins : List Coin) (lock_time : Nat) (spk : ScriptBuf)
    (amount : Nat) (change_spk : ScriptBuf) : Nat :=
  feeFromRate fee_rate (withChangeVsize coins lock_time spk amount change_spk)

/-- Modelled from the spec: `sign_transaction` (in `src/wallet/api.rs`, not
part of the sources) fills the unlock proof of each input according to the spending rule of its
coin kind; the witness-size table is exact for the kinds it
supports, so each filled witness serializes to exactly the table entry for
the kind of that input. -/
def signFillInputs : List TxIn → List UTXOSpendInfo → List TxIn
  | [], _ => []
  | i :: is, [] => i :: is
  | i :: is, k :: ks =>
    { i with witness := List.replicate (witnessSizeFor k) 0 } :: signFillInputs is ks

/-- Modelled from the spec: signing a transaction given the kinds of its
inputs, in order (see `signFillInputs`). -/
def signFill (tx : Transaction) (kinds : List UTXOSpendInfo) : Transaction :=
  { tx with input := signFillInputs tx.input kinds }

/-- Total serialized witness bytes carried by the inputs of a transaction. -/
def witnessBytesOf (tx : Transaction) : Nat :=
  (tx.input.map fun i => i.witness.length).sum

/-- Modelled from the spec: `Transaction::vsize()` measured on the signed
transaction (the bitcoin crate is not part of the sources) — the virtual
size per the spec formula, computed from the base size of the transaction and
its actual witness bytes. -/
def measuredVsize (tx : Transaction) : Nat :=
  (baseSize tx * 4 + witnessBytesOf tx) / 4

/-- Outcome of the assembly stage of `spend_coins` (everything before the
`sign_transaction` call): the unsigned transaction together with the
change-less virtual size (the local `vsize` of line 188, later used by the
post-signing assertion) and the resulting wallet state; a typed error; or a
Rust panic. -/
inductive BuildResult
  | ok (tx : Transaction) (vsize : Nat) (w : Wallet)
  | err (e : WalletError) (w : Wallet)
  | panic (msg : String)
deriving DecidableEq, Repr

/-- Message of the Rust `Amount` subtraction panic on underflow (modelled
from the spec: `bitcoin::Amount` arithmetic is not part of the sources). -/
def amountUnderflowMsg : String := "Amount subtraction error"

/-- Message of the post-signing `assert_eq!` of lines 251-255. -/
def vsizeAssertMsg : String := "Calculated vsize didnt match signed tx vsize"

/-- The assembly stage of `spend_coins` (direct_send.rs lines 107-243),
translated statement by statement: anti-fee-sniping locktime; the coin scan
loop; one input per selected coin; destination resolution; the single
destination output; change-less size and fee estimation; the
insufficient-funds guard for fixed amounts; the output value; and, for fixed
amounts, the change policy with its second estimator pass. -/
def buildTransaction (derive : Nat → ScriptBuf) (dust : ScriptBuf → Nat) (fee_rate : ℚ)
    (send_amount : SendAmount) (destination : Destination) (coins_to_spend : List Coin)
    (w : Wallet) : BuildResult :=
  match lockTimeFromHeight w.blockCount with
  | none => .err WalletError.lockTimeError w
  | some lock_time =>
    match resolveDest derive destination w with
    | .error e => .err e w
    | .ok (spk, w1) =>
      let scan := scanCoins coins_to_spend
      let tx1 := destOnlyTx lock_time coins_to_spend spk
      let vsize := noChangeVsize coins_to_spend lock_time spk
      let fee := noChangeFee fee_rate coins_to_spend lock_time spk
      match send_amount with
      | .Max =>
        if scan.totalValue < fee then
          .panic amountUnderflowMsg
        else
          .ok (setOutputValue tx1 (scan.totalValue - fee)) vsize w1
      | .Amount a =>
        if a + fee > scan.totalValue then
          .err (WalletError.insufficientFund (toBtc scan.totalValue) (toBtc (a + fee))) w1
        else
          let tx2 := setOutputValue tx1 a
          let internal_spk := derive w1.internalIndex
          let w2 := { w1 with internalIndex := w1.internalIndex + 1 }
          let minimal_nondust := dust internal_spk
          let fee_wchange := withChangeFee fee_rate coins_to_spend lock_time spk a internal_spk
          if scan.totalValue < a + fee_wchange then
            .panic amountUnderflowMsg
          else
            let remaining_wchange := scan.totalValue - a - fee_wchange
            if remaining_wchange > minimal_nondust then
              .ok { tx2 with output :=
                      tx2.output ++ [{ value := remaining_wchange, script_pubkey := internal_spk }] }
                vsize w2
            else
              .ok tx2 vsize w2

/-- Outcome of a full `spend_coins` call: the signed transaction and the
resulting wallet state, a typed error, or a Rust panic. -/
inductive SpendResult
  | ok (tx : Transaction) (w : Wallet)
  | err (e : WalletError) (w : Wallet)
  | panic (msg : String)
deriving DecidableEq, Repr

/-- Function `Wallet::spend_coins` (direct_send.rs lines 107-259): assemble the
transaction, sign it, then assert that the measured virtual size of the
signed transaction equals the change-less `vsize` of line 188. -/
def spend_coins (derive : Nat → ScriptBuf) (dust : ScriptBuf → Nat) (fee_rate : ℚ)
    (send_amount : SendAmount) (destination : Destination) (coins_to_spend : List Coin)
    (w : Wallet) : SpendResult :=
  match buildTransaction derive dust fee_rate send_amount destination coins_to_spend w with
  | .err e w1 => .err e w1
  | .panic msg => .panic msg
  | .ok tx vsize w1 =>
    let signed := signFill tx ((scanCoins coins_to_spend).valid.map Prod.snd)
    let signed_tx_vsize := measuredVsize signed
    if signed_tx_vsize = vsize then
      .ok signed w1
    else
      .panic vsizeAssertMsg

/-- Function `Wallet::spend_from_wallet` (direct_send.rs lines 88-105): keep only the
coins whose spend info matches `SeedCoin` or `SwapCoin`, then call
`spend_coins`. -/
def spend_from_wallet (derive : Nat → ScriptBuf) (dust : ScriptBuf → Nat) (fee_rate : ℚ)
    (send_amount : SendAmount) (destination : Destination) (coins_to_spend : List Coin)
    (w : Wallet) : SpendResult :=
  let coins := coins_to_spend.filter fun c => isEligible c.2
  spend_coins derive dust fee_rate send_amount destination coins w

/-- A mixed two-coin list used by concrete witnesses. -/
def egCoinsMixed : List Coin :=
  [({ txid := 1, vout := 0, amount := 5 }, UTXOSpendInfo.SeedCoin),
    ({ txid := 2, vout := 1, amount := 7 }, UTXOSpendInfo.FidelityBondCoin)]

/-- Internal address derivation used by the concrete examples: a 22-byte
script whose bytes identify the index. -/
def egDerive : Nat → ScriptBuf := fun i => { bytes := List.replicate 22 i }

/-- Dust threshold used by the concrete examples: the P2WPKH minimal
non-dust value. -/
def egDust : ScriptBuf → Nat := fun _ => 294

/-- A wallet configured for testnet. -/
def egTestnetWallet : Wallet := { network := .testnet, blockCount := 100, internalIndex := 0 }

/-- A wallet configured for regtest. -/
def egRegtestWallet : Wallet := { network := .regtest, blockCount := 100, internalIndex := 0 }

/-- An address valid only on mainnet, with script byte 1. -/
def egMainnetAddr1 : Address := { script_pubkey := { bytes := [1] }, networks := [.mainnet] }

/-- A different address valid only on mainnet, with script byte 2. -/
def egMainnetAddr2 : Address := { script_pubkey := { bytes := [2] }, networks := [.mainnet] }

/-- An address valid on regtest with a 22-byte script, used as the concrete
destination. -/
def egRegtestAddr : Address :=
  { script_pubkey := { bytes := List.replicate 22 7 }, networks := [.regtest] }

/-- One seed coin worth 100,000 satoshis. -/
def egSeedCoins : List Coin :=
  [({ txid := 9, vout := 0, amount := 100000 }, UTXOSpendInfo.SeedCoin)]

/-- The transaction built by the concrete C9 instance: one input for the
seed coin, the 10,000-satoshi destination output, and the 89,861-satoshi
change output on the derived internal script. -/
def egC9Tx : Transaction :=
  { version := 2
    lock_time := 100
    input := [{ previous_output := { txid := 9, vout := 0 }
                sequence := 0
                witness := []
                script_sig := { bytes := [] } }]
    output := [{ value := 10000, script_pubkey := { bytes := List.replicate 22 7 } },
               { value := 89861, script_pubkey := { bytes := List.replicate 22 0 } }] }

/-- Characterisation of the scan loop from any starting accumulator. -/
theorem foldl_scanStep (coins : List Coin) : ∀ acc : Accum,
    coins.foldl scanStep acc =
      { totalWitness := acc.totalWitness +
          ((coins.filter fun c => isEligible c.2).map fun c => witnessSizeFor c.2).sum
        valid := acc.valid ++ coins.filter fun c => isEligible c.2
        totalValue := acc.totalValue +
          ((coins.filter fun c => isEligible c.2).map fun c => c.1.amount).sum } := by
  induction coins with
  | nil => intro acc; simp
  | cons c rest ih =>
    intro acc
    rcases c with ⟨u, info⟩
    cases info <;>
      simp [scanStep, isEligible, ih, witnessSizeFor, List.filter_cons] <;>
      omega

/-- The selected coins are exactly the eligible ones, in order. -/
theorem scanCoins_valid (coins : List Coin) :
    (scanCoins coins).valid = coins.filter fun c => isEligible c.2 := by
  rw [scanCoins, foldl_scanStep]; simp

/-- The witness total is the sum of the table entries over the selection. -/
theorem scanCoins_totalWitness (coins : List Coin) :
    (scanCoins coins).totalWitness =
      ((coins.filter fun c => isEligible c.2).map fun c => witnessSizeFor c.2).sum := by
  rw [scanCoins, foldl_scanStep]; simp

/-- The input-value total is the sum of the values of the selection. -/
theorem scanCoins_totalValue (coins : List Coin) :
    (scanCoins coins).totalValue =
      ((coins.filter fun c => isEligible c.2).map fun c => c.1.amount).sum := by
  rw [scanCoins, foldl_scanStep]; simp

/-- Ceiling of an integer-over-natural fraction, as floor division of the
shifted numerator. -/
theorem ceil_intCast_div_natCast (n : ℤ) (d : ℕ) (hd : 0 < d) :
    Int.ceil ((n : ℚ) / (d : ℚ)) = (n + d - 1) / (d : ℤ) := by
  have hdz : (0 : ℤ) < (d : ℤ) := by exact_mod_cast hd
  have hdq : (0 : ℚ) < (d : ℚ) := by exact_mod_cast hd
  set c : ℤ := (n + d - 1) / (d : ℤ) with hc
  have key : (d : ℤ) * c + (n + d - 1) % d = n + d - 1 := Int.ediv_add_emod _ _
  have h1 : 0 ≤ (n + d - 1) % d := Int.emod_nonneg _ (ne_of_gt hdz)
  have h2 : (n + d - 1) % d < d := Int.emod_lt_of_pos _ hdz
  have hlo : n ≤ (d : ℤ) * c := by linarith
  have hhi : (d : ℤ) * c ≤ n + d - 1 := by linarith
  have e1 : (c - 1) * (d : ℤ) = d * c - d := by ring
  have e2 : c * (d : ℤ) = d * c := by ring
  have hlt : (c - 1) * (d : ℤ) < n := by linarith
  have hle : n ≤ c * (d : ℤ) := by linarith
  rw [Int.ceil_eq_iff]
  constructor
  · rw [lt_div_iff₀ hdq]
    exact_mod_cast hlt
  · rw [div_le_iff₀ hdq]
    exact_mod_cast hle

/-- The numerator/denominator form of the fee equals the ceiling of the
rational product. -/
theorem feeFromRate_eq_ceil (fee_rate : ℚ) (vsize : Nat) :
    feeFromRate fee_rate vsize = (Int.ceil (fee_rate * (vsize : ℚ))).toNat := by
  have hden : (fee_rate.den : ℚ) ≠ 0 := by
    exact_mod_cast fee_rate.den_nz
  have h0 : (fee_rate.num : ℚ) = fee_rate * (fee_rate.den : ℚ) := by
    have h := Rat.num_div_den fee_rate
    rw [div_eq_iff hden] at h
    exact h
  have hrv : fee_rate * (vsize : ℚ) =
      ((fee_rate.num * vsize : ℤ) : ℚ) / ((fee_rate.den : ℕ) : ℚ) := by
    rw [eq_div_iff hden]
    push_cast
    rw [h0]
    ring
  rw [feeFromRate, hrv, ceil_intCast_div_natCast _ _ fee_rate.pos]

/-- Setting the value of the destination output does not change any serialized
size that `base_size` counts. -/
theorem baseSize_setOutputValue (tx : Transaction) (v : Nat) :
    baseSize (setOutputValue tx v) = baseSize tx := by
  rcases tx with ⟨ver, lt, ins, outs⟩
  cases outs <;> simp [baseSize, setOutputValue, txOutSize, scriptLen]

/-- Filling witnesses touches neither the number of inputs nor their
non-witness serialization. -/
theorem signFillInputs_length (is : List TxIn) (ks : List UTXOSpendInfo) :
    (signFillInputs is ks).length = is.length := by
  induction is generalizing ks with
  | nil => simp [signFillInputs]
  | cons i rest ih =>
    cases ks with
    | nil => simp [signFillInputs]
    | cons k ks => simp [signFillInputs, ih]

/-- Filling witnesses preserves the non-witness serialized size of each input. -/
theorem signFillInputs_baseSizes (is : List TxIn) (ks : List UTXOSpendInfo) :
    (signFillInputs is ks).map txInBaseSize = is.map txInBaseSize := by
  induction is generalizing ks with
  | nil => simp [signFillInputs]
  | cons i rest ih =>
    cases ks with
    | nil => simp [signFillInputs]
    | cons k ks => simp [signFillInputs, ih, txInBaseSize]

/-- Signing does not change the base size. -/
theorem baseSize_signFill (tx : Transaction) (ks : List UTXOSpendInfo) :
    baseSize (signFill tx ks) = baseSize tx := by
  simp [baseSize, signFill, signFillInputs_length, signFillInputs_baseSizes]

/-- When every input gets a kind, the signed witness bytes are exactly the
witness-size table entries, summed. -/
theorem witnessBytes_signFillInputs (is : List TxIn) (ks : List UTXOSpendInfo)
    (h : is.length = ks.length) :
    ((signFillInputs is ks).map fun i => i.witness.length).sum =
      (ks.map witnessSizeFor).sum := by
  induction is generalizing ks with
  | nil =>
    cases ks with
    | nil => simp [signFillInputs]
    | cons k ks => simp at h
  | cons i rest ih =>
    cases ks with
    | nil => simp at h
    | cons k ks =>
      simp only [List.length_cons, Nat.succ.injEq] at h
      simp [signFillInputs, ih _ h]

/-- The scan totals agree with the witness bytes that signing will later
attach to the per-coin inputs. -/
theorem totalWitness_eq_sum_kinds (coins : List Coin) :
    (((scanCoins coins).valid.map Prod.snd).map witnessSizeFor).sum =
      (scanCoins coins).totalWitness := by
  rw [scanCoins_valid, scanCoins_totalWitness, List.map_map]
  rfl

/-- Measured virtual size of the signed transaction, when the
outputs carry scripts `outs` and its inputs are the per-coin inputs: it is
the value of the estimator for that structure. -/
theorem measuredVsize_signFill (tx : Transaction) (coins : List Coin)
    (hin : tx.input = (scanCoins coins).valid.map mkTxIn) :
    measuredVsize (signFill tx ((scanCoins coins).valid.map Prod.snd)) =
      estimateVsize (baseSize tx) (scanCoins coins).totalWitness := by
  have hlen : tx.input.length = ((scanCoins coins).valid.map Prod.snd).length := by
    rw [hin]; simp
  rw [measuredVsize, baseSize_signFill, estimateVsize, witnessBytesOf]
  have hsf : (signFill tx ((scanCoins coins).valid.map Prod.snd)).input =
      signFillInputs tx.input ((scanCoins coins).valid.map Prod.snd) := rfl
  rw [hsf, witnessBytes_signFillInputs _ _ hlen, totalWitness_eq_sum_kinds]

/-- Claim C2: for every input coin list, coins tagged `FidelityBondCoin`,
`HashlockContract` or `TimelockContract` are never selected — they appear
neither among the transaction inputs nor in the total input value or total
witness size; exactly the `SeedCoin` and `SwapCoin` entries are selected, in
order, regardless of duplicates, and filtering never raises an error (it is
a total function; `spend_from_wallet` just calls `spend_coins` on the
filtered list, empty or not). -/
theorem claim_C2_coin_filter (coins : List Coin) :
    (scanCoins coins).valid = coins.filter (fun c => isEligible c.2) ∧
    (scanCoins coins).totalValue =
      ((coins.filter fun c => isEligible c.2).map fun c => c.1.amount).sum ∧
    (scanCoins coins).totalWitness =
      ((coins.filter fun c => isEligible c.2).map fun c => witnessSizeFor c.2).sum ∧
    (∀ lock_time spk, (destOnlyTx lock_time coins spk).input =
      (coins.filter fun c => isEligible c.2).map mkTxIn) ∧
    (∀ derive dust fee_rate send_amount destination w,
      spend_from_wallet derive dust fee_rate send_amount destination coins w =
        spend_coins derive dust fee_rate send_amount destination
          (coins.filter fun c => isEligible c.2) w) ∧
    isEligible UTXOSpendInfo.SeedCoin = true ∧
    isEligible UTXOSpendInfo.SwapCoin = true ∧
    isEligible UTXOSpendInfo.FidelityBondCoin = false ∧
    isEligible UTXOSpendInfo.HashlockContract = false ∧
    isEligible UTXOSpendInfo.TimelockContract = false := by
  refine ⟨scanCoins_valid coins, scanCoins_totalValue coins,
    scanCoins_totalWitness coins, ?_, ?_, rfl, rfl, rfl, rfl, rfl⟩
  · intro lock_time spk
    rw [destOnlyTx, scanCoins_valid]
  · intro derive dust fee_rate send_amount destination w
    rfl

/-- Claim C8: the pre-signing estimator computes
`virtual_size = (base_size * 4 + total_witness_bytes) / 4` with integer
floor division, `fee = ceil(fee_rate * virtual_size)` satoshis, and
`total_witness_bytes` is the sum of the fixed per-kind witness-size table
entries (107 for `SeedCoin`, 222 for `SwapCoin`) over the selected coins,
for every fee rate and coin set. -/
theorem claim_C8_estimator (base_size total_witness_bytes vsize : Nat) (fee_rate : ℚ)
    (coins : List Coin) (hr : 0 ≤ fee_rate) :
    estimateVsize base_size total_witness_bytes = (base_size * 4 + total_witness_bytes) / 4 ∧
    (feeFromRate fee_rate vsize : ℤ) = Int.ceil (fee_rate * (vsize : ℚ)) ∧
    (scanCoins coins).totalWitness =
      ((coins.filter fun c => isEligible c.2).map fun c => witnessSizeFor c.2).sum ∧
    witnessSizeFor UTXOSpendInfo.SeedCoin = 107 ∧
    witnessSizeFor UTXOSpendInfo.SwapCoin = 222 := by
  refine ⟨rfl, ?_, scanCoins_totalWitness coins, rfl, rfl⟩
  rw [feeFromRate_eq_ceil]
  exact Int.toNat_of_nonneg (Int.ceil_nonneg (mul_nonneg hr (Nat.cast_nonneg vsize)))

/-- Witness for C8 at base size 82, witness bytes 107, vsize 108, fee rate
2, and a two-coin list. -/
theorem claim_C8_estimator_witness :
    (0 : ℚ) ≤ 2 ∧
    (estimateVsize 82 107 = (82 * 4 + 107) / 4 ∧
      (feeFromRate 2 108 : ℤ) = Int.ceil ((2 : ℚ) * ((108 : ℕ) : ℚ)) ∧
      (scanCoins egCoinsMixed).totalWitness =
        ((egCoinsMixed.filter fun c => isEligible c.2).map fun c => witnessSizeFor c.2).sum ∧
      witnessSizeFor UTXOSpendInfo.SeedCoin = 107 ∧
      witnessSizeFor UTXOSpendInfo.SwapCoin = 222) :=
  ⟨by norm_num, claim_C8_estimator 82 107 108 2 egCoinsMixed (by norm_num)⟩

/-- Counterexample to claim C7 as stated: the rejection error is the fixed
general error with message `Wrong address type in destinations.`; two
distinct offending addresses (and two distinct configured networks) produce
the very same error value, so the error carries neither the offending
address nor the configured network. -/
theorem claim_C7_counterexample :
    spend_coins egDerive egDust 1 (SendAmount.Amount 1000)
        (Destination.Address egMainnetAddr1) [] egTestnetWallet =
      SpendResult.err (WalletError.general "Wrong address type in destinations.")
        egTestnetWallet ∧
    spend_coins egDerive egDust 1 (SendAmount.Amount 1000)
        (Destination.Address egMainnetAddr2) [] egTestnetWallet =
      SpendResult.err (WalletError.general "Wrong address type in destinations.")
        egTestnetWallet ∧
    spend_coins egDerive egDust 1 (SendAmount.Amount 1000)
        (Destination.Address egMainnetAddr1) [] egRegtestWallet =
      SpendResult.err (WalletError.general "Wrong address type in destinations.")
        egRegtestWallet ∧
    egMainnetAddr1 ≠ egMainnetAddr2 ∧
    egTestnetWallet.network ≠ egRegtestWallet.network := by
  refine ⟨by decide, by decide, by decide, by decide, by decide⟩

/-- Claim C7 as amended: `Address(a)` is accepted exactly when `a` is valid
for the configured network, or valid for Testnet or Signet while the
configured network is Testnet or Signet; on acceptance the output script of `a`
is used unchanged; on rejection `spend_coins` fails with the fixed general
error `Wrong address type in destinations.`, which carries neither the
address nor the network. -/
theorem claim_C7_destination_validation (derive : Nat → ScriptBuf) (a : Address) (w : Wallet) :
    resolveDest derive (Destination.Address a) w =
      (if a.isValidForNetwork w.network = true ∨
          ((a.isValidForNetwork Network.testnet = true ∨
            a.isValidForNetwork Network.signet = true) ∧
            (w.network = Network.testnet ∨ w.network = Network.signet))
        then Except.ok (a.script_pubkey, w)
        else Except.error (WalletError.general "Wrong address type in destinations.")) := by
  rw [resolveDest]
  split_ifs with h1 h2 h3
  · exfalso
    simp only [Bool.and_eq_true, Bool.not_eq_true', Bool.or_eq_true,
      decide_eq_true_eq, Bool.not_eq_true] at h1
    rcases h2 with hv | ⟨hts, hn⟩
    · rw [h1.1] at hv; exact Bool.false_ne_true hv
    · rcases h1 with ⟨-, hf⟩
      rw [Bool.and_eq_false_iff] at hf
      rcases hf with hf | hf
      · rw [Bool.or_eq_false_iff] at hf
        rcases hts with hts | hts
        · rw [hf.1] at hts; exact Bool.false_ne_true hts
        · rw [hf.2] at hts; exact Bool.false_ne_true hts
      · rw [Bool.or_eq_false_iff] at hf
        rcases hn with hn | hn
        · rw [hn] at hf; simp at hf
        · rw [hn] at hf; simp at hf
  · rfl
  · rfl
  · exfalso
    apply h3
    simp only [Bool.and_eq_true, Bool.not_eq_true', Bool.not_eq_true] at h1
    by_cases hv : a.isValidForNetwork w.network = true
    · left
      exact hv
    · right
      have hvf : a.isValidForNetwork w.network = false := Bool.eq_false_iff.mpr hv
      by_cases ht : ((a.isValidForNetwork Network.testnet ||
          a.isValidForNetwork Network.signet) &&
          (decide (w.network = Network.testnet) || decide (w.network = Network.signet))) = true
      · rw [Bool.and_eq_true, Bool.or_eq_true, Bool.or_eq_true,
          decide_eq_true_eq, decide_eq_true_eq] at ht
        exact ht
      · exact absurd ⟨hvf, Bool.eq_false_iff.mpr ht⟩ h1

/-- Shape of the assembly stage for a fixed amount, once the locktime and
the destination are resolved: the insufficient-funds guard, then the
underflowing change subtraction, then the strict dust comparison. -/
theorem buildTransaction_amount_eq (derive : Nat → ScriptBuf) (dust : ScriptBuf → Nat)
    (fee_rate : ℚ) (a : Nat) (destination : Destination) (coins : List Coin) (w : Wallet)
    (lt : Nat) (hlt : lockTimeFromHeight w.blockCount = some lt)
    (spk : ScriptBuf) (w1 : Wallet)
    (hd : resolveDest derive destination w = Except.ok (spk, w1)) :
    buildTransaction derive dust fee_rate (SendAmount.Amount a) destination coins w =
      (if a + noChangeFee fee_rate coins lt spk > (scanCoins coins).totalValue then
        BuildResult.err (WalletError.insufficientFund (toBtc (scanCoins coins).totalValue)
          (toBtc (a + noChangeFee fee_rate coins lt spk))) w1
      else if (scanCoins coins).totalValue <
          a + withChangeFee fee_rate coins lt spk a (derive w1.internalIndex) then
        BuildResult.panic amountUnderflowMsg
      else if (scanCoins coins).totalValue - a -
          withChangeFee fee_rate coins lt spk a (derive w1.internalIndex) >
          dust (derive w1.internalIndex) then
        BuildResult.ok
          { setOutputValue (destOnlyTx lt coins spk) a with
              output := (setOutputValue (destOnlyTx lt coins spk) a).output ++
                [{ value := (scanCoins coins).totalValue - a -
                    withChangeFee fee_rate coins lt spk a (derive w1.internalIndex),
                   script_pubkey := derive w1.internalIndex }] }
          (noChangeVsize coins lt spk) { w1 with internalIndex := w1.internalIndex + 1 }
      else
        BuildResult.ok (setOutputValue (destOnlyTx lt coins spk) a)
          (noChangeVsize coins lt spk) { w1 with internalIndex := w1.internalIndex + 1 }) := by
  rw [buildTransaction, hlt, hd]

/-- Shape of the assembly stage for a `Max` send, once the locktime and the
destination are resolved: underflow when the fee exceeds the input value,
otherwise the single destination output takes all value minus fee and the
change policy never runs. -/
theorem buildTransaction_max_eq (derive : Nat → ScriptBuf) (dust : ScriptBuf → Nat)
    (fee_rate : ℚ) (destination : Destination) (coins : List Coin) (w : Wallet)
    (lt : Nat) (hlt : lockTimeFromHeight w.blockCount = some lt)
    (spk : ScriptBuf) (w1 : Wallet)
    (hd : resolveDest derive destination w = Except.ok (spk, w1)) :
    buildTransaction derive dust fee_rate SendAmount.Max destination coins w =
      (if (scanCoins coins).totalValue < noChangeFee fee_rate coins lt spk then
        BuildResult.panic amountUnderflowMsg
      else
        BuildResult.ok
          (setOutputValue (destOnlyTx lt coins spk)
            ((scanCoins coins).totalValue - noChangeFee fee_rate coins lt spk))
          (noChangeVsize coins lt spk) w1) := by
  rw [buildTransaction, hlt, hd]

/-- Claim C3: for every fixed-amount call where the amount plus the
change-less estimated fee exceeds the total eligible input value,
`spend_coins` fails with an insufficient-funds error whose `available` field
is the total eligible input value and whose `required` field is
`amount + fee`, both converted to whole-coin units by `toBtc`, and no
transaction is returned. -/
theorem claim_C3_insufficient_funds (derive : Nat → ScriptBuf) (dust : ScriptBuf → Nat)
    (fee_rate : ℚ) (a : Nat) (destination : Destination) (coins : List Coin) (w : Wallet)
    (lt : Nat) (spk : ScriptBuf) (w1 : Wallet)
    (hlt : lockTimeFromHeight w.blockCount = some lt)
    (hd : resolveDest derive destination w = Except.ok (spk, w1))
    (hguard : a + noChangeFee fee_rate coins lt spk > (scanCoins coins).totalValue) :
    spend_coins derive dust fee_rate (SendAmount.Amount a) destination coins w =
      SpendResult.err
        (WalletError.insufficientFund (toBtc (scanCoins coins).totalValue)
          (toBtc (a + noChangeFee fee_rate coins lt spk))) w1 := by
  rw [spend_coins, buildTransaction_amount_eq derive dust fee_rate a destination coins w lt hlt
    spk w1 hd, if_pos hguard]

/-- Claim C5: inputs that pass the insufficient-funds guard but whose total
input value is below `amount` plus the with-change fee make the change
unsigned `Amount` subtraction of the policy underflow, so `spend_coins` panics
instead of returning a transaction or a typed error. -/
theorem claim_C5_change_fee_underflow (derive : Nat → ScriptBuf) (dust : ScriptBuf → Nat)
    (fee_rate : ℚ) (a : Nat) (destination : Destination) (coins : List Coin) (w : Wallet)
    (lt : Nat) (spk : ScriptBuf) (w1 : Wallet)
    (hlt : lockTimeFromHeight w.blockCount = some lt)
    (hd : resolveDest derive destination w = Except.ok (spk, w1))
    (hguard : ¬ a + noChangeFee fee_rate coins lt spk > (scanCoins coins).totalValue)
    (hunder : (scanCoins coins).totalValue <
      a + withChangeFee fee_rate coins lt spk a (derive w1.internalIndex)) :
    spend_coins derive dust fee_rate (SendAmount.Amount a) destination coins w =
      SpendResult.panic amountUnderflowMsg := by
  rw [spend_coins, buildTransaction_amount_eq derive dust fee_rate a destination coins w lt hlt
    spk w1 hd, if_neg hguard, if_pos hunder]

/-- Claim C10: every fixed-amount call that reaches the change policy
derives exactly one change-candidate internal address and advances the
internal address index by one, whether the change output is committed or
discarded; network and chain height are untouched (the returned wallet is
`w1` with only `internalIndex` incremented). -/
theorem claim_C10_change_address_consumption (derive : Nat → ScriptBuf) (dust : ScriptBuf → Nat)
    (fee_rate : ℚ) (a : Nat) (destination : Destination) (coins : List Coin) (w : Wallet)
    (lt : Nat) (spk : ScriptBuf) (w1 : Wallet)
    (hlt : lockTimeFromHeight w.blockCount = some lt)
    (hd : resolveDest derive destination w = Except.ok (spk, w1))
    (hguard : ¬ a + noChangeFee fee_rate coins lt spk > (scanCoins coins).totalValue)
    (hnounder : ¬ (scanCoins coins).totalValue <
      a + withChangeFee fee_rate coins lt spk a (derive w1.internalIndex)) :
    ∃ tx, buildTransaction derive dust fee_rate (SendAmount.Amount a) destination coins w =
      BuildResult.ok tx (noChangeVsize coins lt spk)
        { w1 with internalIndex := w1.internalIndex + 1 } := by
  rw [buildTransaction_amount_eq derive dust fee_rate a destination coins w lt hlt spk w1 hd,
    if_neg hguard, if_neg hnounder]
  split
  · exact ⟨_, rfl⟩
  · exact ⟨_, rfl⟩

/-- Claim C4: every fixed-amount call that reaches the change policy builds
a with-change trial transaction, recomputes the fee from the own
base size, and appends the change output of value
`total − amount − fee_with_change` exactly when that value is strictly
greater than the minimal non-dust value of the change script; at equality or
below, the change-less transaction is kept, and in both branches the
change-less virtual size (and hence fee) is the one the ok-result carries. -/
theorem claim_C4_change_policy (derive : Nat → ScriptBuf) (dust : ScriptBuf → Nat)
    (fee_rate : ℚ) (a : Nat) (destination : Destination) (coins : List Coin) (w : Wallet)
    (lt : Nat) (spk : ScriptBuf) (w1 : Wallet)
    (hlt : lockTimeFromHeight w.blockCount = some lt)
    (hd : resolveDest derive destination w = Except.ok (spk, w1))
    (hguard : ¬ a + noChangeFee fee_rate coins lt spk > (scanCoins coins).totalValue)
    (hnounder : ¬ (scanCoins coins).totalValue <
      a + withChangeFee fee_rate coins lt spk a (derive w1.internalIndex)) :
    buildTransaction derive dust fee_rate (SendAmount.Amount a) destination coins w =
      (if (scanCoins coins).totalValue - a -
          withChangeFee fee_rate coins lt spk a (derive w1.internalIndex) >
          dust (derive w1.internalIndex) then
        BuildResult.ok
          { setOutputValue (destOnlyTx lt coins spk) a with
              output := (setOutputValue (destOnlyTx lt coins spk) a).output ++
                [{ value := (scanCoins coins).totalValue - a -
                    withChangeFee fee_rate coins lt spk a (derive w1.internalIndex),
                   script_pubkey := derive w1.internalIndex }] }
          (noChangeVsize coins lt spk) { w1 with internalIndex := w1.internalIndex + 1 }
      else
        BuildResult.ok (setOutputValue (destOnlyTx lt coins spk) a)
          (noChangeVsize coins lt spk)
          { w1 with internalIndex := w1.internalIndex + 1 }) ∧
    withChangeFee fee_rate coins lt spk a (derive w1.internalIndex) =
      feeFromRate fee_rate
        (estimateVsize (baseSize (withChangeTx lt coins spk a (derive w1.internalIndex)))
          (scanCoins coins).totalWitness) := by
  constructor
  · rw [buildTransaction_amount_eq derive dust fee_rate a destination coins w lt hlt spk w1 hd,
      if_neg hguard, if_neg hnounder]
  · rfl

/-- Claim C6: a `Max` send whose change-less fee does not exceed the total
eligible input value returns the signed transaction with exactly one output
of value `total − fee` paying the destination script; the change policy
never runs and the wallet state is exactly the post-destination-resolution
state (no change-candidate address is derived). -/
theorem claim_C6_max_send (derive : Nat → ScriptBuf) (dust : ScriptBuf → Nat)
    (fee_rate : ℚ) (destination : Destination) (coins : List Coin) (w : Wallet)
    (lt : Nat) (spk : ScriptBuf) (w1 : Wallet)
    (hlt : lockTimeFromHeight w.blockCount = some lt)
    (hd : resolveDest derive destination w = Except.ok (spk, w1))
    (hfee : noChangeFee fee_rate coins lt spk ≤ (scanCoins coins).totalValue) :
    spend_coins derive dust fee_rate SendAmount.Max destination coins w =
      SpendResult.ok
        (signFill (setOutputValue (destOnlyTx lt coins spk)
            ((scanCoins coins).totalValue - noChangeFee fee_rate coins lt spk))
          ((scanCoins coins).valid.map Prod.snd)) w1 ∧
    (signFill (setOutputValue (destOnlyTx lt coins spk)
        ((scanCoins coins).totalValue - noChangeFee fee_rate coins lt spk))
      ((scanCoins coins).valid.map Prod.snd)).output =
      [{ value := (scanCoins coins).totalValue - noChangeFee fee_rate coins lt spk,
         script_pubkey := spk }] := by
  have hxin : (setOutputValue (destOnlyTx lt coins spk)
      ((scanCoins coins).totalValue - noChangeFee fee_rate coins lt spk)).input =
      (scanCoins coins).valid.map mkTxIn := rfl
  have hms := measuredVsize_signFill _ coins hxin
  rw [baseSize_setOutputValue] at hms
  constructor
  · rw [spend_coins, buildTransaction_max_eq derive dust fee_rate destination coins w lt hlt
      spk w1 hd, if_neg (not_lt.mpr hfee)]
    dsimp only
    rw [hms]
    exact if_pos rfl
  · rfl

/-- Each per-coin input has zero sequence, empty witness and empty unlock
script. -/
theorem forall_input_fields (coins : List Coin) :
    ∀ i ∈ (scanCoins coins).valid.map mkTxIn,
      i.sequence = 0 ∧ i.witness = [] ∧ i.script_sig = { bytes := [] } := by
  intro i hi
  rw [List.mem_map] at hi
  obtain ⟨c, -, rfl⟩ := hi
  exact ⟨rfl, rfl, rfl⟩

/-- Claim C9: every transaction assembled by `spend_coins` (for a chain
height in the locktime range) has version 2, locktime equal to the current
chain height, one input per eligible coin — each a previous-output
reference with zero sequence, empty witness and empty unlock script — and
outputs ordered destination first, optional change (paying the derived
internal script) second. -/
theorem claim_C9_tx_shape (derive : Nat → ScriptBuf) (dust : ScriptBuf → Nat)
    (fee_rate : ℚ) (send_amount : SendAmount) (destination : Destination) (coins : List Coin)
    (w : Wallet) (spk : ScriptBuf) (w1 : Wallet) (tx : Transaction) (vs : Nat) (w2 : Wallet)
    (hh : w.blockCount ≤ 499999999)
    (hd : resolveDest derive destination w = Except.ok (spk, w1))
    (hok : buildTransaction derive dust fee_rate send_amount destination coins w =
      BuildResult.ok tx vs w2) :
    tx.version = 2 ∧
    tx.lock_time = w.blockCount ∧
    tx.input = (scanCoins coins).valid.map mkTxIn ∧
    (∀ i ∈ tx.input, i.sequence = 0 ∧ i.witness = [] ∧ i.script_sig = { bytes := [] }) ∧
    (∃ v, tx.output = [{ value := v, script_pubkey := spk }] ∨
      ∃ r, tx.output = [{ value := v, script_pubkey := spk },
        { value := r, script_pubkey := derive w1.internalIndex }]) := by
  have hlt : lockTimeFromHeight w.blockCount = some w.blockCount := by
    simp only [lockTimeFromHeight]
    rw [Nat.mod_eq_of_lt (by omega : w.blockCount < 4294967296)]
    exact if_pos hh
  cases send_amount with
  | Max =>
    rw [buildTransaction_max_eq derive dust fee_rate destination coins w _ hlt spk w1 hd]
      at hok
    split at hok
    · exact absurd hok (by simp)
    · simp only [BuildResult.ok.injEq] at hok
      obtain ⟨htx, -, -⟩ := hok
      subst htx
      exact ⟨rfl, rfl, rfl, forall_input_fields coins, ⟨_, Or.inl rfl⟩⟩
  | Amount a =>
    rw [buildTransaction_amount_eq derive dust fee_rate a destination coins w _ hlt spk w1 hd]
      at hok
    split at hok
    · exact absurd hok (by simp)
    · split at hok
      · exact absurd hok (by simp)
      · split at hok
        · simp only [BuildResult.ok.injEq] at hok
          obtain ⟨htx, -, -⟩ := hok
          subst htx
          exact ⟨rfl, rfl, rfl, forall_input_fields coins, ⟨a, Or.inr ⟨_, rfl⟩⟩⟩
        · simp only [BuildResult.ok.injEq] at hok
          obtain ⟨htx, -, -⟩ := hok
          subst htx
          exact ⟨rfl, rfl, rfl, forall_input_fields coins, ⟨a, Or.inl rfl⟩⟩

/-- Claim C1 evaluated at a failing input: a fixed-amount send of 10,000
satoshis from a 100,000-satoshi seed coin at fee rate 1 commits a change
output, after which the measured virtual size of the signed transaction is
the with-change virtual size, while the post-signing assertion compares it
against the change-less virtual size of line 188 — so `spend_coins` panics
on this ordinary, fully-funded send. -/
theorem claim_C1_stale_vsize_assert :
    spend_coins egDerive egDust 1 (SendAmount.Amount 10000)
        (Destination.Address egRegtestAddr) egSeedCoins egRegtestWallet =
      SpendResult.panic vsizeAssertMsg ∧
    withChangeVsize egSeedCoins 100 egRegtestAddr.script_pubkey 10000 (egDerive 0) ≠
      noChangeVsize egSeedCoins 100 egRegtestAddr.script_pubkey := by
  exact ⟨by decide, by decide⟩

/-- Witness for C3: sending the whole coin value as a fixed amount leaves
nothing for the fee, so the call fails with the insufficient-funds error in
whole-coin units. -/
theorem claim_C3_insufficient_funds_witness :
    spend_coins egDerive egDust 1 (SendAmount.Amount 100000)
        (Destination.Address egRegtestAddr) egSeedCoins egRegtestWallet =
      SpendResult.err
        (WalletError.insufficientFund (toBtc (scanCoins egSeedCoins).totalValue)
          (toBtc (100000 + noChangeFee 1 egSeedCoins 100 egRegtestAddr.script_pubkey)))
        egRegtestWallet :=
  claim_C3_insufficient_funds egDerive egDust 1 100000 (Destination.Address egRegtestAddr)
    egSeedCoins egRegtestWallet 100 egRegtestAddr.script_pubkey egRegtestWallet
    (by decide) (by rfl) (by decide)

/-- Witness for C5: an amount of 99,892 satoshis passes the guard exactly
(amount plus change-less fee 108 equals the 100,000 input) but the
with-change fee is 139, so the change subtraction underflows and the call
panics. -/
theorem claim_C5_change_fee_underflow_witness :
    spend_coins egDerive egDust 1 (SendAmount.Amount 99892)
        (Destination.Address egRegtestAddr) egSeedCoins egRegtestWallet =
      SpendResult.panic amountUnderflowMsg :=
  claim_C5_change_fee_underflow egDerive egDust 1 99892 (Destination.Address egRegtestAddr)
    egSeedCoins egRegtestWallet 100 egRegtestAddr.script_pubkey egRegtestWallet
    (by decide) (by rfl) (by decide) (by decide)

/-- Witness for C10: the fixed-amount send of 10,000 satoshis reaches the
change policy and the returned wallet has its internal index advanced by
exactly one. -/
theorem claim_C10_change_address_consumption_witness :
    ∃ tx, buildTransaction egDerive egDust 1 (SendAmount.Amount 10000)
        (Destination.Address egRegtestAddr) egSeedCoins egRegtestWallet =
      BuildResult.ok tx (noChangeVsize egSeedCoins 100 egRegtestAddr.script_pubkey)
        { egRegtestWallet with internalIndex := egRegtestWallet.internalIndex + 1 } :=
  claim_C10_change_address_consumption egDerive egDust 1 10000
    (Destination.Address egRegtestAddr) egSeedCoins egRegtestWallet 100
    egRegtestAddr.script_pubkey egRegtestWallet (by decide) (by rfl) (by decide) (by decide)

/-- Witness for C4: the same fixed-amount send, with remaining change value
89,861 satoshis against the 294-satoshi dust bound, instantiates the change
policy equation. -/
theorem claim_C4_change_policy_witness :
    (buildTransaction egDerive egDust 1 (SendAmount.Amount 10000)
        (Destination.Address egRegtestAddr) egSeedCoins egRegtestWallet =
      (if (scanCoins egSeedCoins).totalValue - 10000 -
          withChangeFee 1 egSeedCoins 100 egRegtestAddr.script_pubkey 10000 (egDerive 0) >
          egDust (egDerive 0) then
        BuildResult.ok
          { setOutputValue (destOnlyTx 100 egSeedCoins egRegtestAddr.script_pubkey) 10000 with
              output :=
                (setOutputValue (destOnlyTx 100 egSeedCoins egRegtestAddr.script_pubkey)
                    10000).output ++
                  [{ value := (scanCoins egSeedCoins).totalValue - 10000 -
                      withChangeFee 1 egSeedCoins 100 egRegtestAddr.script_pubkey 10000
                        (egDerive 0),
                     script_pubkey := egDerive 0 }] }
          (noChangeVsize egSeedCoins 100 egRegtestAddr.script_pubkey)
          { egRegtestWallet with internalIndex := egRegtestWallet.internalIndex + 1 }
      else
        BuildResult.ok (setOutputValue (destOnlyTx 100 egSeedCoins egRegtestAddr.script_pubkey)
            10000)
          (noChangeVsize egSeedCoins 100 egRegtestAddr.script_pubkey)
          { egRegtestWallet with internalIndex := egRegtestWallet.internalIndex + 1 })) ∧
    withChangeFee 1 egSeedCoins 100 egRegtestAddr.script_pubkey 10000 (egDerive 0) =
      feeFromRate 1
        (estimateVsize
          (baseSize (withChangeTx 100 egSeedCoins egRegtestAddr.script_pubkey 10000 (egDerive 0)))
          (scanCoins egSeedCoins).totalWitness) :=
  claim_C4_change_policy egDerive egDust 1 10000 (Destination.Address egRegtestAddr)
    egSeedCoins egRegtestWallet 100 egRegtestAddr.script_pubkey egRegtestWallet
    (by decide) (by rfl) (by decide) (by decide)

/-- Witness for C6: a `Max` send of the 100,000-satoshi coin at fee rate 1
returns one output of 100,000 − 108 satoshis to the destination script. -/
theorem claim_C6_max_send_witness :
    spend_coins egDerive egDust 1 SendAmount.Max (Destination.Address egRegtestAddr)
        egSeedCoins egRegtestWallet =
      SpendResult.ok
        (signFill (setOutputValue (destOnlyTx 100 egSeedCoins egRegtestAddr.script_pubkey)
            ((scanCoins egSeedCoins).totalValue -
              noChangeFee 1 egSeedCoins 100 egRegtestAddr.script_pubkey))
          ((scanCoins egSeedCoins).valid.map Prod.snd)) egRegtestWallet ∧
    (signFill (setOutputValue (destOnlyTx 100 egSeedCoins egRegtestAddr.script_pubkey)
        ((scanCoins egSeedCoins).totalValue -
          noChangeFee 1 egSeedCoins 100 egRegtestAddr.script_pubkey))
      ((scanCoins egSeedCoins).valid.map Prod.snd)).output =
      [{ value := (scanCoins egSeedCoins).totalValue -
          noChangeFee 1 egSeedCoins 100 egRegtestAddr.script_pubkey,
         script_pubkey := egRegtestAddr.script_pubkey }] :=
  claim_C6_max_send egDerive egDust 1 (Destination.Address egRegtestAddr) egSeedCoins
    egRegtestWallet 100 egRegtestAddr.script_pubkey egRegtestWallet
    (by decide) (by rfl) (by decide)

/-- Witness for C9 at the concrete change-committing send. -/
theorem claim_C9_tx_shape_witness :
    egC9Tx.version = 2 ∧
    egC9Tx.lock_time = egRegtestWallet.blockCount ∧
    egC9Tx.input = (scanCoins egSeedCoins).valid.map mkTxIn ∧
    (∀ i ∈ egC9Tx.input,
      i.sequence = 0 ∧ i.witness = [] ∧ i.script_sig = { bytes := [] }) ∧
    (∃ v, egC9Tx.output = [{ value := v, script_pubkey := egRegtestAddr.script_pubkey }] ∨
      ∃ r, egC9Tx.output = [{ value := v, script_pubkey := egRegtestAddr.script_pubkey },
        { value := r, script_pubkey := egDerive egRegtestWallet.internalIndex }]) :=
  claim_C9_tx_shape egDerive egDust 1 (SendAmount.Amount 10000)
    (Destination.Address egRegtestAddr) egSeedCoins egRegtestWallet
    egRegtestAddr.script_pubkey egRegtestWallet egC9Tx
    (noChangeVsize egSeedCoins 100 egRegtestAddr.script_pubkey)
    { egRegtestWallet with internalIndex := 1 }
    (by decide) (by rfl) (by decide)

end Coinswap

